import Mathlib

/-!
Verification development for the onboarding-assistant repository.

The two modules with real logic are embedded here:
* `src/backend/drive_service.py` — polling Google Drive documents, hashing
  content, change detection, forwarding changed content to the Backboard
  memory backend, and bookkeeping writes to the document store.
* `src/backend/tools.py` — detecting `@tool` invocation markers in free
  text, extracting parameters, and routing to tool handlers.

External collaborators (the Google Drive API, the Backboard client, the
`hashlib` MD5 digest and the `datetime` ISO parser from the Python standard
library) are modelled as parameters or as explicit outcome values supplied
by the environment, exactly at their call boundary.  The document-store
functions `db.lookup_drive_document` / `db.update_drive_document` /
`db.create_drive_document` are called by `drive_service.py` but are not
defined anywhere in the repository's sources; their behaviour is modelled
from the spec's Document store contract where needed.
-/

/-- Metadata returned by the Drive API for a file
(`drive_service.py:108-130`, fields `name`, `modifiedTime`, `webViewLink`;
the `webViewLink` field may be absent, read with `.get`). -/
structure FileMeta where
  name : String
  modifiedTime : String
  webViewLink : Option String
deriving DecidableEq

/-- A tracked document record, as stored by the document store and as
created at `drive_service.py:232-239` (fields follow the keyword arguments
of `db.create_drive_document`). -/
structure WatchedDocument where
  file_id : String
  client_id : String
  file_name : String
  content_hash : String
  last_modified : String
  content : String
deriving DecidableEq

/-- The observable effects of processing one document: the Backboard
submission (`add_message`, lines 216-224) and the document-store writes
(`db.update_drive_document` line 230, `db.create_drive_document`
lines 232-239).  `update` carries exactly the arguments the caller passes. -/
inductive Effect where
  | forward (formatted : String)
  | insert (doc : WatchedDocument)
  | update (file_id content_hash content : String)
deriving DecidableEq

/-- The environment one `process_document` call runs in: the results of the
external calls it makes, in source order.  `metadata` models
`get_file_metadata`, `content` models `get_document_content`, `existing`
models `db.lookup_drive_document`, `clientFound` / `assistantFound` model
the `db.lookup_client` / `db.lookup_assistant` results, and `forwardExc`
is `some msg` when the Backboard submission raises (caught at line 241). -/
structure DocEnv where
  metadata : Option FileMeta
  content : Option String
  existing : Option WatchedDocument
  clientFound : Bool
  assistantFound : Bool
  forwardExc : Option String

/-- Outcome of the change detection at `drive_service.py:170-177`. -/
inductive Classification where
  | New
  | Changed
  | Unchanged
deriving DecidableEq

/-- Function `compute_content_hash` (`drive_service.py:132-142`) delegates to
`hashlib.md5(...).hexdigest()`; the digest itself is an external library
function, passed here as the parameter `md5hex`. -/
def compute_content_hash (md5hex : String → String) (content : String) : String :=
  md5hex content

/-- The change classification performed inline at `drive_service.py:168-177`:
no stored record → new document; stored record with the same content hash →
unchanged (early return); stored record with a different hash → changed. -/
def classify (md5hex : String → String) (existing : Option WatchedDocument)
    (new_content : String) : Classification :=
  match existing with
  | none => Classification.New
  | some d =>
      if d.content_hash = compute_content_hash md5hex new_content then Classification.Unchanged
      else Classification.Changed

/-- The f-string template at `drive_service.py:203-212` (note the leading
and trailing newlines of the triple-quoted literal). -/
def formatContent (metadata : FileMeta) (content : String) : String :=
  "\nMeeting Notes from: " ++ metadata.name ++
  "\nLast Modified: " ++ metadata.modifiedTime ++
  "\nLink: " ++ metadata.webViewLink.getD "N/A" ++
  "\n\nContent:\n" ++ content ++
  "\n\nPlease remember this information for future queries about onboarding, meetings, and project context.\n"

/-- The `try` block of `process_document` (`drive_service.py:180-239`).
Returns the effects performed together with `some msg` when an exception
escaped to the handler at line 241.  Client or assistant missing returns
normally with no effect (lines 183-185, 193-195); an exception during the
thread creation / message submission (modelled by `env.forwardExc`) leaves
the submission attempt in the trace and skips the store write. -/
def forward_and_store (env : DocEnv) (file_id client_id : String)
    (metadata : FileMeta) (content content_hash : String) :
    List Effect × Option String :=
  if !env.clientFound then ([], none)
  else if !env.assistantFound then ([], none)
  else
    match env.forwardExc with
    | some e => ([Effect.forward (formatContent metadata content)], some e)
    | none =>
        match env.existing with
        | some _ =>
            ([Effect.forward (formatContent metadata content),
              Effect.update file_id content_hash content], none)
        | none =>
            ([Effect.forward (formatContent metadata content),
              Effect.insert ⟨file_id, client_id, metadata.name, content_hash,
                             metadata.modifiedTime, content⟩], none)

/-- Method `DriveService.process_document` (`drive_service.py:144-242`) as the list
of effects it performs.  Missing metadata or content returns early
(lines 154-162); the Python guard `if not content:` is falsy for the empty
string as well, so empty content is also skipped; an unchanged hash returns
early (line 174); the exception from the `try` block is caught and only
printed (line 241), so the function always returns normally. -/
def process_document (md5hex : String → String) (env : DocEnv)
    (file_id client_id : String) : List Effect :=
  match env.metadata with
  | none => []
  | some metadata =>
      match env.content with
      | none => []
      | some content =>
          if content = "" then []
          else
            match classify md5hex env.existing content with
            | Classification.Unchanged => []
            | _ =>
                (forward_and_store env file_id client_id metadata content
                  (compute_content_hash md5hex content)).1

/-- One cycle of the polling loop (`drive_service.py:259-262`): the `for`
loop awaits `process_document` for every watched file id in order.  Because
`process_document` catches its forwarding exceptions internally, every
document of the cycle is reached. -/
def poll_cycle (md5hex : String → String) (envs : String → DocEnv)
    (file_ids : List String) (client_id : String) : List (String × List Effect) :=
  file_ids.map (fun fid => (fid, process_document md5hex (envs fid) fid client_id))

/-- Modelled from the spec: the document store (`db.lookup_drive_document`,
`db.update_drive_document`, `db.create_drive_document`) is called by
`drive_service.py` but not defined anywhere under the repository's sources.
Per the spec's Document store contract, `insert(record)` adds the record and
`update` overwrites the stored fields supplied by the caller — the caller at
`drive_service.py:230` supplies the file id, the new hash and the new
content. -/
def applyEffect (store : List WatchedDocument) : Effect → List WatchedDocument
  | Effect.forward _ => store
  | Effect.insert d => store ++ [d]
  | Effect.update fid h c =>
      store.map (fun d =>
        if d.file_id = fid then { d with content_hash := h, content := c } else d)

/-- Applying a trace of effects to a store state, in order. -/
def applyEffects (store : List WatchedDocument) (effs : List Effect) :
    List WatchedDocument :=
  effs.foldl applyEffect store

/-- Number of Backboard submissions in an effect trace. -/
def countForward (effs : List Effect) : Nat :=
  (effs.filter (fun e => match e with | Effect.forward _ => true | _ => false)).length

/-- Number of document-store writes (inserts or updates) in an effect trace. -/
def countWrite (effs : List Effect) : Nat :=
  (effs.filter (fun e =>
    match e with
    | Effect.insert _ => true
    | Effect.update _ _ _ => true
    | _ => false)).length

/-! ## tools.py — tool invocation detection -/

/-- ASCII reading of Python's regex class `\w` (`tools.py:23`): letters,
digits, or underscore. -/
def isWordChar (c : Char) : Bool :=
  c.isAlphanum || c = '_'

/-- The regex class `["\x27]` of `tools.py:23`: a double or single quote. -/
def quoteChar (c : Char) : Bool :=
  c = '"' || c = '\''

/-- The maximal run of word characters at the head of the list — the greedy
`\w+` of the pattern. -/
def takeWord : List Char → List Char
  | [] => []
  | c :: cs => if isWordChar c then c :: takeWord cs else []

/-- One attempt of the pattern `@["\x27]?(\w+)["\x27]?` at a position whose
`@` has just been consumed: the optional quote is tried greedily; since a
quote is not a word character, backtracking the optional quote cannot
succeed, so the attempt succeeds exactly when the next character is a word
character, or is a quote followed by a word character.  The capture is the
greedy word run; the trailing optional quote never constrains the match. -/
def markerLocal : List Char → Option (List Char)
  | [] => none
  | c :: cs =>
      if quoteChar c then
        match cs with
        | [] => none
        | d :: _ => if isWordChar d then some (takeWord cs) else none
      else if isWordChar c then some (takeWord (c :: cs))
      else none

/-- The search `re.search` of the pattern `@["\x27]?(\w+)["\x27]?` over the text
(`tools.py:23-24`): the match must begin with a literal `@`, and the
leftmost position with a successful attempt wins. -/
def detectAux : List Char → Option (List Char)
  | [] => none
  | c :: rest =>
      if c = '@' then
        match markerLocal rest with
        | some w => some w
        | none => detectAux rest
      else detectAux rest

/-- Function `detect_tool_invocation` (`tools.py:15-27`): returns the first captured
tool name, or `none` when the pattern does not occur. -/
def detect_tool_invocation (content : String) : Option String :=
  (detectAux content.data).map (fun cs => String.mk cs)

/-- The attempt of the pattern at text position `i` (for stating the
first-occurrence characterization of `detect_tool_invocation`). -/
def markerAt (cs : List Char) (i : Nat) : Option (List Char) :=
  match cs.drop i with
  | [] => none
  | c :: rest => if c = '@' then markerLocal rest else none

/-- The tool-marker grammar exactly as the spec words it, for comparison
with `detect_tool_invocation`: an `@` immediately followed by an identifier,
optionally wrapped in a single or double quote on each side (examples given
in the spec: `@"create_file"`, `@create_file`, `@'create_file'`).  A quoted
form must therefore be closed by its matching quote; the first occurrence in
the text wins. -/
def specGrammarLocal : List Char → Option (List Char)
  | [] => none
  | c :: cs =>
      if quoteChar c then
        match takeWord cs with
        | [] => none
        | w => if (cs.drop w.length).head? = some c then some w else none
      else
        match takeWord (c :: cs) with
        | [] => none
        | w => some w

/-- Scanner for the spec grammar: the first `@` whose suffix matches the
grammar wins. -/
def specGrammarDetectAux : List Char → Option (List Char)
  | [] => none
  | c :: rest =>
      if c = '@' then
        match specGrammarLocal rest with
        | some w => some w
        | none => specGrammarDetectAux rest
      else specGrammarDetectAux rest

/-- String-level wrapper for the spec-grammar detector. -/
def specGrammarDetect (content : String) : Option String :=
  (specGrammarDetectAux content.data).map (fun cs => String.mk cs)

/-! ## tools.py — parameter extraction

The router's parameter patterns (`tools.py:294-295, 317, 326`) all have a
common shape: a case-insensitive label literal, a run `[:\s]+` of colons or
whitespace, then a tail.  They are embedded with explicit backtracking in
the same order a backtracking regex engine tries alternatives (greedy
quantifier first, then shorter runs). -/

/-- The regex class `[:\s]` — a colon or Python whitespace. -/
def sepChar (c : Char) : Bool :=
  c = ':' || c = ' ' || c = '\t' || c = '\n' || c = '\r' || c = '\x0b' || c = '\x0c'

/-- Case-insensitive literal match (the `re.IGNORECASE` flag of all four
parameter patterns); the literal is given lowercase.  Returns the remaining
text after the literal. -/
def matchLitCI : List Char → List Char → Option (List Char)
  | [], rest => some rest
  | _ :: _, [] => none
  | l :: ls, c :: cs => if c.toLower = l then matchLitCI ls cs else none

/-- The maximal run of non-quote characters at the head — the greedy
`[^"\x27]+` capture of the filename/topic patterns. -/
def takeNonQuote : List Char → List Char
  | [] => []
  | c :: cs => if quoteChar c then [] else c :: takeNonQuote cs

/-- The tail `["\x27]?([^"\x27]+)["\x27]?` of the filename/topic patterns:
the optional quote is consumed greedily when present; if no non-quote
character follows it, backtracking the optional quote makes `[^"\x27]+`
face the quote itself and fail.  The trailing optional quote never
constrains the match. -/
def qTail : List Char → Option (List Char)
  | [] => none
  | c :: cs =>
      if quoteChar c then
        match cs with
        | [] => none
        | d :: _ => if quoteChar d then none else some (takeNonQuote cs)
      else some (takeNonQuote (c :: cs))

/-- Backtracking for `[:\s]+ <tail>` after at least one separator has been
consumed: the greedy engine first extends the separator run, and on failure
retries `tail` starting at the current character. -/
def sepMore (tail : List Char → Option (List Char)) : List Char → Option (List Char)
  | [] => tail []
  | c :: cs =>
      if sepChar c then
        match sepMore tail cs with
        | some r => some r
        | none => tail (c :: cs)
      else tail (c :: cs)

/-- The pattern `[:\s]+ <tail>`: requires at least one separator character. -/
def sepPlus (tail : List Char → Option (List Char)) : List Char → Option (List Char)
  | [] => none
  | c :: cs => if sepChar c then sepMore tail cs else none

/-- The search `re.search` for a pattern `<lit>[:\s]+<tail>`: the leftmost text
position where the case-insensitive literal and the rest of the pattern
match; on failure the scan resumes at the next position. -/
def searchLabeled (lit : List Char) (tail : List Char → Option (List Char)) :
    List Char → Option (List Char)
  | [] => none
  | c :: cs =>
      match matchLitCI lit (c :: cs) with
      | some rest =>
          match sepPlus tail rest with
          | some cap => some cap
          | none => searchLabeled lit tail cs
      | none => searchLabeled lit tail cs

/-- The filename pattern `filename[:\s]+["\x27]?([^"\x27]+)["\x27]?`
(`tools.py:294`). -/
def filenameSearch (cs : List Char) : Option (List Char) :=
  searchLabeled "filename".data qTail cs

/-- The topic pattern `topic[:\s]+["\x27]?([^"\x27]+)["\x27]?`
(`tools.py:326`). -/
def topicSearch (cs : List Char) : Option (List Char) :=
  searchLabeled "topic".data qTail cs

/-- The lazy capture `(.+?)["\x27]` of the content pattern with `re.DOTALL`:
the shortest non-empty run (newlines included) followed by a single or
double quote; the closing quote need not match the opening one. -/
def lazyCap : List Char → Option (List Char)
  | [] => none
  | [_] => none
  | c :: d :: cs =>
      if quoteChar d then some [c]
      else (lazyCap (d :: cs)).map (fun r => c :: r)

/-- The tail `["\x27](.+?)["\x27]` of the content pattern: a mandatory
opening quote, then the lazy capture. -/
def contentTail : List Char → Option (List Char)
  | [] => none
  | c :: cs => if quoteChar c then lazyCap cs else none

/-- The content pattern `content[:\s]+["\x27](.+?)["\x27]` with
`re.DOTALL | re.IGNORECASE` (`tools.py:295`). -/
def contentSearch (cs : List Char) : Option (List Char) :=
  searchLabeled "content".data contentTail cs

/-- The greedy digit run `\d+`. -/
def takeDigits : List Char → List Char
  | [] => []
  | c :: cs => if c.isDigit then c :: takeDigits cs else []

/-- The tail `(\d+)` of the hours pattern: at least one digit, greedy. -/
def digitsTail : List Char → Option (List Char)
  | [] => none
  | c :: cs => if c.isDigit then some (c :: takeDigits cs) else none

/-- The search `re.search` for the hours pattern `hours?[:\s]+(\d+)` with
`re.IGNORECASE` (`tools.py:317`): the literal `hour`, a greedily consumed
optional `s` (retried without it on failure), separators, digits. -/
def hoursSearch : List Char → Option (List Char)
  | [] => none
  | c :: cs =>
      match matchLitCI "hour".data (c :: cs) with
      | some rest =>
          (match rest with
           | s :: rs =>
               if s.toLower = 's' then
                 match sepPlus digitsTail rs with
                 | some cap => some cap
                 | none => sepPlus digitsTail rest
               else sepPlus digitsTail rest
           | [] => none).orElse (fun _ => hoursSearch cs)
      | none => hoursSearch cs

/-- Conversion `int(...)` on the captured digit run. -/
def digitsToNat (cs : List Char) : Nat :=
  cs.foldl (fun n c => 10 * n + (c.toNat - 48)) 0

/-! ## tools.py — handlers and router -/

/-- Python's `str.lower()` (ASCII reading), character by character. -/
def strLower (s : String) : String :=
  String.mk (s.data.map Char.toLower)

/-- Python's slice `s[:n]`: the first `n` characters. -/
def strTake (s : String) (n : Nat) : String :=
  String.mk (s.data.take n)

/-- A memory item as returned by `backboard_client.get_memories`: a mapping
read with `.get`, so every field may be absent (`tools.py:97-110`); a
missing `metadata` behaves as an empty mapping. -/
structure Memory where
  content : String
  memory_id : Option String
  source : Option String
  ingested_at : Option String
deriving DecidableEq

/-- The per-memory dictionary appended to a bucket (`tools.py:107-111`):
a 200-character content preview with a trailing ellipsis, the raw
`ingested_at` string, and the memory id. -/
structure MemoryEntry where
  content : String
  ingested_at : String
  memory_id : Option String
deriving DecidableEq

/-- The `recent_context` accumulator with its three buckets
(`tools.py:90-94`). -/
structure RecentContext where
  telegram : List MemoryEntry
  drive : List MemoryEntry
  github : List MemoryEntry
deriving DecidableEq

/-- Outcome of the `get_memories` call inside the handlers' inner `try`
(`tools.py:79-84`, `190-194`): a successful list, an `AttributeError`
(the method does not exist — the fallback uses an empty list), or any other
exception (caught by the handler's outer `try`). -/
inductive FetchOutcome where
  | ok (memories : List Memory)
  | attrMissing
  | raised (msg : String)

/-- The bucket entry built at `tools.py:107-111`. -/
def entryOf (m : Memory) (s : String) : MemoryEntry :=
  ⟨strTake m.content 200 ++ "...", s, m.memory_id⟩

/-- One iteration of the grouping loop (`tools.py:97-121`): read the source
tag (default `"unknown"`) and the `ingested_at` string; a missing or empty
string is falsy and skips the entry; a timestamp the ISO parser rejects is
skipped by the `except` clause; an in-window entry is appended to the bucket
its lower-cased source tag selects, and unrecognized tags fall through.
`parseTs` models `datetime.fromisoformat` composed with the `Z` replacement
and the timezone stripping, yielding the timestamp in seconds; `cutoff` is
`now - timedelta(hours=hours)`.  The code's window test is `>= cutoff` with
no upper bound. -/
def addMemory (parseTs : String → Option Int) (cutoff : Int)
    (ctx : RecentContext) (m : Memory) : RecentContext :=
  match m.ingested_at with
  | none => ctx
  | some s =>
      if s = "" then ctx
      else
        match parseTs s with
        | none => ctx
        | some t =>
            if cutoff ≤ t then
              if strLower (m.source.getD "unknown") = "telegram" then
                { ctx with telegram := ctx.telegram ++ [entryOf m s] }
              else if strLower (m.source.getD "unknown") = "drive" then
                { ctx with drive := ctx.drive ++ [entryOf m s] }
              else if strLower (m.source.getD "unknown") ∈ (["github", "git"] : List String) then
                { ctx with github := ctx.github ++ [entryOf m s] }
              else ctx
            else ctx

/-- The whole grouping loop over the memory list (`tools.py:97-121`). -/
def bucketMemories (parseTs : String → Option Int) (cutoff : Int)
    (memories : List Memory) : RecentContext :=
  memories.foldl (addMemory parseTs cutoff) ⟨[], [], []⟩

/-- Function `format_recent_context` (`tools.py:141-172`): a header with the hour
count, one section per non-empty bucket showing at most the first five
entries, and a fallback line when every bucket is empty. -/
def format_recent_context (context : RecentContext) (hours : Int) : String :=
  let output := "📊 Recent Activity (Last " ++ toString hours ++ " hours)\n\n"
  let telegram_count := context.telegram.length
  let drive_count := context.drive.length
  let github_count := context.github.length
  let output :=
    if telegram_count > 0 then
      output ++ "📢 Chat Decisions (Source: Telegram) - " ++ toString telegram_count ++ " items\n" ++
      ((context.telegram.take 5).foldl (fun acc item => acc ++ "  • " ++ item.content ++ "\n") "") ++ "\n"
    else output
  let output :=
    if drive_count > 0 then
      output ++ "📄 New Specs (Source: Drive) - " ++ toString drive_count ++ " items\n" ++
      ((context.drive.take 5).foldl (fun acc item => acc ++ "  • " ++ item.content ++ "\n") "") ++ "\n"
    else output
  let output :=
    if github_count > 0 then
      output ++ "💻 Code Changes (Source: Github) - " ++ toString github_count ++ " items\n" ++
      ((context.github.take 5).foldl (fun acc item => acc ++ "  • " ++ item.content ++ "\n") "") ++ "\n"
    else output
  if telegram_count = 0 ∧ drive_count = 0 ∧ github_count = 0 then
    output ++ "No recent activity found in the specified time period.\n"
  else output

/-- A tool result dictionary (`tools.py`): every result carries `tool` and
`status`; the remaining keys are present only in the results that set them. -/
structure ToolResult where
  tool : String
  status : String
  filename : Option String := none
  content : Option String := none
  message : Option String := none
  hours : Option Int := none
  context : Option RecentContext := none
  formatted : Option String := none
  topic : Option String := none
  mermaid : Option String := none
  error : Option String := none
deriving DecidableEq

/-- Function `handle_create_file` (`tools.py:30-56`): returns the ready result; no
filesystem mutation happens in this layer. -/
def handle_create_file (filename content : String) : ToolResult :=
  { tool := "create_file", status := "ready", filename := some filename,
    content := some content,
    message := some ("File creation request prepared: " ++ filename) }

/-- Function `handle_get_recent_context` (`tools.py:59-138`): on a `get_memories`
`AttributeError` the fallback list is empty; any other exception is caught
by the outer `try` and converted to an error result; otherwise the memories
are bucketed against `cutoff = now - hours*3600` seconds and the success
result carries the buckets and the rendered summary. -/
def handle_get_recent_context (parseTs : String → Option Int) (now : Int)
    (fetch : FetchOutcome) (hours : Int) : ToolResult :=
  match fetch with
  | FetchOutcome.raised msg =>
      { tool := "get_recent_context", status := "error", error := some msg }
  | FetchOutcome.attrMissing =>
      let ctx := bucketMemories parseTs (now - hours * 3600) []
      { tool := "get_recent_context", status := "success", hours := some hours,
        context := some ctx, formatted := some (format_recent_context ctx hours) }
  | FetchOutcome.ok memories =>
      let ctx := bucketMemories parseTs (now - hours * 3600) memories
      { tool := "get_recent_context", status := "success", hours := some hours,
        context := some ctx, formatted := some (format_recent_context ctx hours) }

/-- Function `build_mermaid_graph` (`tools.py:221-265`): the first ten memories are
indexed and grouped by source tag; each non-empty group contributes a
category node fanning out to one leaf per entry (label: 50-character
preview); with no grouped entries a single fallback leaf is emitted. -/
def build_mermaid_graph (topic : String) (memories : List Memory) : String :=
  let graph := "graph TD\n" ++ "    Start[\"" ++ topic ++ "\"]\n"
  let tagged := (memories.take 10).enum.map (fun p =>
    ("Node" ++ toString p.1, strLower (p.2.source.getD "unknown"),
     strTake p.2.content 50 ++ "..."))
  let telegram_nodes := tagged.filterMap (fun p =>
    if p.2.1 = "telegram" then some (p.1, p.2.2) else none)
  let drive_nodes := tagged.filterMap (fun p =>
    if p.2.1 = "drive" then some (p.1, p.2.2) else none)
  let code_nodes := tagged.filterMap (fun p =>
    if p.2.1 ∈ (["github", "git"] : List String) then some (p.1, p.2.2) else none)
  let graph :=
    if telegram_nodes ≠ [] then
      telegram_nodes.foldl
        (fun acc p => acc ++ "    Telegram --> " ++ p.1 ++ "[\"" ++ p.2 ++ "\"]\n")
        (graph ++ "    Start --> Telegram[\"Telegram Discussions\"]\n")
    else graph
  let graph :=
    if drive_nodes ≠ [] then
      drive_nodes.foldl
        (fun acc p => acc ++ "    Drive --> " ++ p.1 ++ "[\"" ++ p.2 ++ "\"]\n")
        (graph ++ "    Start --> Drive[\"Drive Documents\"]\n")
    else graph
  let graph :=
    if code_nodes ≠ [] then
      code_nodes.foldl
        (fun acc p => acc ++ "    Code --> " ++ p.1 ++ "[\"" ++ p.2 ++ "\"]\n")
        (graph ++ "    Start --> Code[\"Code Implementation\"]\n")
    else graph
  if telegram_nodes = [] ∧ drive_nodes = [] ∧ code_nodes = [] then
    graph ++ "    Start --> NoData[\"No related data found\"]\n"
  else graph

/-- The Python substring test `needle in hay` on character lists. -/
def substrIn : List Char → List Char → Bool
  | needle, [] => needle.isEmpty
  | needle, c :: t => needle.isPrefixOf (c :: t) || substrIn needle t

/-- Function `handle_generate_mermaid_graph` (`tools.py:175-218`): same fetch
handling as the context handler; the memories whose lower-cased content
contains the lower-cased topic are rendered into the graph. -/
def handle_generate_mermaid_graph (fetch : FetchOutcome) (topic : String) : ToolResult :=
  match fetch with
  | FetchOutcome.raised msg =>
      { tool := "generate_mermaid_graph", status := "error", error := some msg }
  | FetchOutcome.attrMissing =>
      let g := build_mermaid_graph topic []
      { tool := "generate_mermaid_graph", status := "success", topic := some topic,
        mermaid := some g, formatted := some ("```mermaid\n" ++ g ++ "\n```") }
  | FetchOutcome.ok memories =>
      let related := memories.filter (fun m =>
        substrIn (strLower topic).data (strLower m.content).data)
      let g := build_mermaid_graph topic related
      { tool := "generate_mermaid_graph", status := "success", topic := some topic,
        mermaid := some g, formatted := some ("```mermaid\n" ++ g ++ "\n```") }

/-- Function `execute_tool` (`tools.py:268-338`): dispatch on the tool name;
`create_file` extracts filename (default `docs/ONBOARDING.md`) and content
(an absent match leaves the content empty, which triggers the
`pending_content` result); `get_recent_context` extracts the hours (default
24); `generate_mermaid_graph` extracts the topic or falls back to the text
with the marker removed and trimmed; any other name is an unknown-tool
error result. -/
def execute_tool (parseTs : String → Option Int) (now : Int)
    (fetch : FetchOutcome) (tool_name content : String) : ToolResult :=
  if tool_name = "create_file" then
    let filename :=
      match filenameSearch content.data with
      | some f => String.mk f
      | none => "docs/ONBOARDING.md"
    let file_content :=
      match contentSearch content.data with
      | some c => String.mk c
      | none => ""
    if file_content = "" then
      { tool := "create_file", status := "pending_content", filename := some filename,
        message := some ("Please provide the content for " ++ filename) }
    else handle_create_file filename file_content
  else if tool_name = "get_recent_context" then
    let hours : Int :=
      match hoursSearch content.data with
      | some ds => Int.ofNat (digitsToNat ds)
      | none => 24
    handle_get_recent_context parseTs now fetch hours
  else if tool_name = "generate_mermaid_graph" then
    let topic :=
      match topicSearch content.data with
      | some t => String.mk t
      | none => (content.replace ("@" ++ tool_name) "").trim
    handle_generate_mermaid_graph fetch topic
  else
    { tool := tool_name, status := "error",
      error := some ("Unknown tool: " ++ tool_name) }

/-! ## Claims about the Drive polling / change detection layer -/

/-- C1: ChangeDetector classification trichotomy — an absent stored record
classifies new content as `New`; a present record classifies it `Unchanged`
exactly when its stored `content_hash` equals the hash of the content, and
`Changed` exactly otherwise.  `classify` is a plain function of the stored
record and the content, so no other outcome is possible. -/
theorem C1_classify_trichotomy (md5hex : String → String)
    (existing : Option WatchedDocument) (C : String) :
    (existing = none → classify md5hex existing C = Classification.New) ∧
    (∀ d, existing = some d →
      (classify md5hex existing C = Classification.Unchanged ↔
        d.content_hash = compute_content_hash md5hex C)) ∧
    (∀ d, existing = some d →
      (classify md5hex existing C = Classification.Changed ↔
        d.content_hash ≠ compute_content_hash md5hex C)) := by
  refine ⟨fun h => by simp [classify, h], fun d hd => ?_, fun d hd => ?_⟩ <;>
    subst hd <;>
    by_cases h : d.content_hash = compute_content_hash md5hex C <;>
    simp [classify, h]

/-- Witness for C1 at concrete records: equal hash gives `Unchanged`, a
differing hash gives `Changed`, an absent record gives `New`. -/
theorem C1_classify_trichotomy_witness :
    classify (fun s => s) (some ⟨"f", "c", "n", "abc", "t", "abc"⟩) "abc" =
      Classification.Unchanged ∧
    classify (fun s => s) (some ⟨"f", "c", "n", "xyz", "t", "x"⟩) "abc" =
      Classification.Changed ∧
    classify (fun s => s) none "abc" = Classification.New :=
  ⟨((C1_classify_trichotomy (fun s => s) (some ⟨"f", "c", "n", "abc", "t", "abc"⟩)
        "abc").2.1 ⟨"f", "c", "n", "abc", "t", "abc"⟩ rfl).mpr (by decide),
   ((C1_classify_trichotomy (fun s => s) (some ⟨"f", "c", "n", "xyz", "t", "x"⟩)
        "abc").2.2 ⟨"f", "c", "n", "xyz", "t", "x"⟩ rfl).mpr (by decide),
   (C1_classify_trichotomy (fun s => s) none "abc").1 rfl⟩

/-- C2: per-document frame conditions of a poll cycle, for a document whose
fetch succeeded (metadata present, non-empty content — the code treats empty
content as a fetch soft-failure) and whose forwarding environment is healthy
(client and assistant registered, submission does not raise): an unchanged
hash produces no Backboard call and leaves every store state unchanged; an
absent record produces exactly one forward and exactly one insert; a
differing hash produces exactly one forward and exactly one update. -/
theorem C2_process_frame (md5hex : String → String) (env : DocEnv)
    (fid cid : String) (md : FileMeta) (c : String)
    (hm : env.metadata = some md) (hc : env.content = some c) (hne : c ≠ "")
    (hcl : env.clientFound = true) (has : env.assistantFound = true)
    (hfw : env.forwardExc = none) :
    (∀ d, env.existing = some d → d.content_hash = md5hex c →
        process_document md5hex env fid cid = [] ∧
        ∀ store, applyEffects store (process_document md5hex env fid cid) = store) ∧
    (env.existing = none →
        process_document md5hex env fid cid =
          [Effect.forward (formatContent md c),
           Effect.insert ⟨fid, cid, md.name, md5hex c, md.modifiedTime, c⟩] ∧
        countForward (process_document md5hex env fid cid) = 1 ∧
        countWrite (process_document md5hex env fid cid) = 1) ∧
    (∀ d, env.existing = some d → d.content_hash ≠ md5hex c →
        process_document md5hex env fid cid =
          [Effect.forward (formatContent md c), Effect.update fid (md5hex c) c] ∧
        countForward (process_document md5hex env fid cid) = 1 ∧
        countWrite (process_document md5hex env fid cid) = 1) := by
  refine ⟨fun d hd hh => ?_, fun hd => ?_, fun d hd hh => ?_⟩
  · have htrace : process_document md5hex env fid cid = [] := by
      simp [process_document, hm, hc, hne, classify, compute_content_hash, hd, hh]
    exact ⟨htrace, fun store => by rw [htrace]; rfl⟩
  · have htrace : process_document md5hex env fid cid =
        [Effect.forward (formatContent md c),
         Effect.insert ⟨fid, cid, md.name, md5hex c, md.modifiedTime, c⟩] := by
      simp [process_document, hm, hc, hne, classify, compute_content_hash, hd,
        forward_and_store, hcl, has, hfw]
    rw [htrace]
    exact ⟨rfl, rfl, rfl⟩
  · have htrace : process_document md5hex env fid cid =
        [Effect.forward (formatContent md c), Effect.update fid (md5hex c) c] := by
      simp [process_document, hm, hc, hne, classify, compute_content_hash, hd, hh,
        forward_and_store, hcl, has, hfw]
    rw [htrace]
    exact ⟨rfl, rfl, rfl⟩

/-- Witness for C2: a concrete unchanged document produces no effect, and a
concrete changed document produces exactly the forward and the update. -/
theorem C2_process_frame_witness :
    (process_document (fun s => s)
        ⟨some ⟨"Doc", "T", none⟩, some "same", some ⟨"f", "c", "Doc", "same", "T0", "same"⟩,
         true, true, none⟩ "f" "c" = []) ∧
    (process_document (fun s => s)
        ⟨some ⟨"Doc", "T", none⟩, some "new", some ⟨"f", "c", "Doc", "old", "T0", "prev"⟩,
         true, true, none⟩ "f" "c" =
      [Effect.forward (formatContent ⟨"Doc", "T", none⟩ "new"),
       Effect.update "f" "new" "new"]) :=
  ⟨((C2_process_frame (fun s => s)
      ⟨some ⟨"Doc", "T", none⟩, some "same", some ⟨"f", "c", "Doc", "same", "T0", "same"⟩,
       true, true, none⟩ "f" "c" ⟨"Doc", "T", none⟩ "same" rfl rfl (by decide) rfl rfl
      rfl).1 ⟨"f", "c", "Doc", "same", "T0", "same"⟩ rfl rfl).1,
   ((C2_process_frame (fun s => s)
      ⟨some ⟨"Doc", "T", none⟩, some "new", some ⟨"f", "c", "Doc", "old", "T0", "prev"⟩,
       true, true, none⟩ "f" "c" ⟨"Doc", "T", none⟩ "new" rfl rfl (by decide) rfl rfl
      rfl).2.2 ⟨"f", "c", "Doc", "old", "T0", "prev"⟩ rfl (by decide)).1⟩

/-- C6 counterexample: a changed document is forwarded successfully, the
metadata carries the new modification stamp `"NEW"`, yet the store update
requested at `drive_service.py:230` passes only the file id, the new hash
and the new content — after applying it, the stored record still carries the
old stamp `"OLD"`, so the update does not write the new modification
timestamp as the claim states. -/
theorem C6_counterexample :
    process_document (fun s => s)
        ⟨some ⟨"Doc", "NEW", some "L"⟩, some "new",
         some ⟨"f", "c", "Doc", "old", "OLD", "prev"⟩, true, true, none⟩ "f" "c" =
      [Effect.forward (formatContent ⟨"Doc", "NEW", some "L"⟩ "new"),
       Effect.update "f" "new" "new"] ∧
    applyEffects [⟨"f", "c", "Doc", "old", "OLD", "prev"⟩]
        (process_document (fun s => s)
          ⟨some ⟨"Doc", "NEW", some "L"⟩, some "new",
           some ⟨"f", "c", "Doc", "old", "OLD", "prev"⟩, true, true, none⟩ "f" "c") =
      [⟨"f", "c", "Doc", "new", "OLD", "new"⟩] ∧
    ("OLD" : String) ≠ "NEW" := by
  refine ⟨rfl, rfl, by decide⟩

/-- C6 as amended: on every successful forward of a changed document the
poller requests exactly one store update carrying the new hash and the new
content; the modification timestamp is not among the arguments, and applying
the trace leaves the `last_modified` field of every stored record unchanged
(the timestamp is written only by the insert of a new document). -/
theorem C6_update_without_timestamp (md5hex : String → String) (env : DocEnv)
    (fid cid : String) (md : FileMeta) (c : String) (d : WatchedDocument)
    (hm : env.metadata = some md) (hc : env.content = some c) (hne : c ≠ "")
    (hcl : env.clientFound = true) (has : env.assistantFound = true)
    (hfw : env.forwardExc = none) (hex : env.existing = some d)
    (hch : d.content_hash ≠ md5hex c) :
    process_document md5hex env fid cid =
      [Effect.forward (formatContent md c), Effect.update fid (md5hex c) c] ∧
    ∀ store : List WatchedDocument,
      (applyEffects store (process_document md5hex env fid cid)).map
          WatchedDocument.last_modified =
        store.map WatchedDocument.last_modified := by
  have htrace : process_document md5hex env fid cid =
      [Effect.forward (formatContent md c), Effect.update fid (md5hex c) c] := by
    simp [process_document, hm, hc, hne, classify, compute_content_hash, hex, hch,
      forward_and_store, hcl, has, hfw]
  refine ⟨htrace, fun store => ?_⟩
  rw [htrace]
  simp only [applyEffects, List.foldl, applyEffect, List.map_map]
  induction store with
  | nil => rfl
  | cons x xs ih =>
      simp only [List.map_cons] at ih ⊢
      rw [ih]
      by_cases hx : x.file_id = fid <;> simp [Function.comp, hx]

/-- Witness for the amended C6 at the counterexample input: the update is
requested and the stored timestamps are untouched. -/
theorem C6_update_without_timestamp_witness :
    process_document (fun s => s)
        ⟨some ⟨"Doc", "NEW", some "L"⟩, some "new",
         some ⟨"f", "c", "Doc", "old", "OLD", "prev"⟩, true, true, none⟩ "f" "c" =
      [Effect.forward (formatContent ⟨"Doc", "NEW", some "L"⟩ "new"),
       Effect.update "f" "new" "new"] ∧
    (applyEffects [⟨"f", "c", "Doc", "old", "OLD", "prev"⟩]
        (process_document (fun s => s)
          ⟨some ⟨"Doc", "NEW", some "L"⟩, some "new",
           some ⟨"f", "c", "Doc", "old", "OLD", "prev"⟩, true, true, none⟩ "f" "c")).map
        WatchedDocument.last_modified =
      [⟨"f", "c", "Doc", "old", "OLD", "prev"⟩].map WatchedDocument.last_modified :=
  have h := C6_update_without_timestamp (fun s => s)
    ⟨some ⟨"Doc", "NEW", some "L"⟩, some "new",
     some ⟨"f", "c", "Doc", "old", "OLD", "prev"⟩, true, true, none⟩ "f" "c"
    ⟨"Doc", "NEW", some "L"⟩ "new" ⟨"f", "c", "Doc", "old", "OLD", "prev"⟩
    rfl rfl (by decide) rfl rfl rfl rfl (by decide)
  ⟨h.1, h.2 [⟨"f", "c", "Doc", "old", "OLD", "prev"⟩]⟩

/-- C7: poller failure isolation — with document `a`'s environment raising
during its forward, every document of the cycle is still visited in order,
and any later document `b` is fetched, classified and forwarded according to
its own environment alone.  The isolation holds because the exception is
caught inside `process_document` (line 241) before the polling loop sees it. -/
theorem C7_failure_isolation (md5hex : String → String) (envs : String → DocEnv)
    (cid : String) (pre post : List String) (a b e : String)
    (ha : (envs a).forwardExc = some e) (hb : b ∈ post) :
    (poll_cycle md5hex envs (pre ++ a :: post) cid).map Prod.fst = pre ++ a :: post ∧
    (b, process_document md5hex (envs b) b cid) ∈
      poll_cycle md5hex envs (pre ++ a :: post) cid := by
  constructor
  · simp only [poll_cycle, List.map_map]
    exact List.map_id _
  · exact List.mem_map_of_mem _ (by simp [hb])

/-- Witness for C7: document `"a"` raises during its forward, and the later
document `"b"` is still processed per its own environment. -/
theorem C7_failure_isolation_witness :
    (poll_cycle (fun s => s)
        (fun _ => ⟨some ⟨"Doc", "T", none⟩, some "x", none, true, true, some "boom"⟩)
        (["a"] ++ "a" :: ["b"]) "c").map Prod.fst = ["a"] ++ "a" :: ["b"] ∧
    ("b", process_document (fun s => s)
        ⟨some ⟨"Doc", "T", none⟩, some "x", none, true, true, some "boom"⟩ "b" "c") ∈
      poll_cycle (fun s => s)
        (fun _ => ⟨some ⟨"Doc", "T", none⟩, some "x", none, true, true, some "boom"⟩)
        (["a"] ++ "a" :: ["b"]) "c" :=
  C7_failure_isolation (fun s => s)
    (fun _ => ⟨some ⟨"Doc", "T", none⟩, some "x", none, true, true, some "boom"⟩)
    "c" ["a"] ["b"] "a" "b" "boom" rfl (by decide)

/-- C9 counterexample: with identical healthy environments, a fetched empty
content produces no effect at all (it is skipped by the falsy-content guard
at `drive_service.py:160`), while the same new document with non-empty
content is forwarded and inserted — so empty content is not processed like
any other content value. -/
theorem C9_counterexample :
    process_document (fun s => s)
        ⟨some ⟨"Doc", "T", none⟩, some "", none, true, true, none⟩ "f" "c" = [] ∧
    process_document (fun s => s)
        ⟨some ⟨"Doc", "T", none⟩, some "x", none, true, true, none⟩ "f" "c" ≠ [] := by
  refine ⟨by decide, by decide⟩

/-- C9 as amended: a document whose fetched content is the empty string is
treated like a failed extraction — `process_document` performs no hash, no
classification, no forward and no store write, whatever the rest of the
environment holds. -/
theorem C9_empty_content_skipped (md5hex : String → String) (env : DocEnv)
    (fid cid : String) (h : env.content = some "") :
    process_document md5hex env fid cid = [] ∧
    ∀ store, applyEffects store (process_document md5hex env fid cid) = store := by
  have htrace : process_document md5hex env fid cid = [] := by
    cases hmeta : env.metadata <;> simp [process_document, hmeta, h]
  exact ⟨htrace, fun store => by rw [htrace]; rfl⟩

/-- Witness for the amended C9 at a concrete healthy environment. -/
theorem C9_empty_content_skipped_witness :
    process_document (fun s => s)
        ⟨some ⟨"Doc", "T", none⟩, some "", none, true, true, none⟩ "f" "c" = [] ∧
    applyEffects [⟨"f", "c", "Doc", "h", "T0", "x"⟩]
        (process_document (fun s => s)
          ⟨some ⟨"Doc", "T", none⟩, some "", none, true, true, none⟩ "f" "c") =
      [⟨"f", "c", "Doc", "h", "T0", "x"⟩] :=
  have h := C9_empty_content_skipped (fun s => s)
    ⟨some ⟨"Doc", "T", none⟩, some "", none, true, true, none⟩ "f" "c" rfl
  ⟨h.1, h.2 [⟨"f", "c", "Doc", "h", "T0", "x"⟩]⟩

/-! ## Claims about the tool-invocation detector -/

/-- The greedy word run only contains word characters. -/
theorem takeWord_all (l : List Char) : (takeWord l).all isWordChar = true := by
  induction l with
  | nil => rfl
  | cons c cs ih =>
      by_cases h : isWordChar c
      · simp [takeWord, h, ih]
      · simp [takeWord, h]

/-- On a list of word characters the greedy word run is the whole list. -/
theorem takeWord_of_all (l : List Char) (h : l.all isWordChar = true) :
    takeWord l = l := by
  induction l with
  | nil => rfl
  | cons c cs ih =>
      simp only [List.all_cons, Bool.and_eq_true] at h
      simp [takeWord, h.1, ih h.2]

/-- The greedy word run stops at a trailing non-word character. -/
theorem takeWord_append_stop (l : List Char) (q : Char)
    (h : l.all isWordChar = true) (hq : isWordChar q = false) :
    takeWord (l ++ [q]) = l := by
  induction l with
  | nil => simp [takeWord, hq]
  | cons c cs ih =>
      simp only [List.all_cons, Bool.and_eq_true] at h
      simp [takeWord, h.1, ih h.2]

/-- A successful local match captures a non-empty run of word characters. -/
theorem markerLocal_sound (l w : List Char) (h : markerLocal l = some w) :
    w ≠ [] ∧ w.all isWordChar = true := by
  cases l with
  | nil => simp [markerLocal] at h
  | cons c cs =>
      by_cases hq : quoteChar c
      · cases cs with
        | nil => simp [markerLocal, hq] at h
        | cons d ds =>
            by_cases hd : isWordChar d
            · simp only [markerLocal, hq, hd, if_true, Option.some.injEq] at h
              subst h
              exact ⟨by simp [takeWord, hd], takeWord_all _⟩
            · simp [markerLocal, hq, hd] at h
      · by_cases hc : isWordChar c
        · simp only [markerLocal, hq, hc, if_true, if_false, Option.some.injEq,
            Bool.false_eq_true] at h
          subst h
          exact ⟨by simp [takeWord, hc], takeWord_all _⟩
        · simp [markerLocal, hq, hc] at h

/-- Every successful detection captures a non-empty run of word characters. -/
theorem detectAux_sound (cs w : List Char) (h : detectAux cs = some w) :
    w ≠ [] ∧ w.all isWordChar = true := by
  induction cs with
  | nil => simp [detectAux] at h
  | cons c rest ih =>
      by_cases hc : c = '@'
      · simp only [detectAux, hc, if_pos] at h
        cases hm : markerLocal rest with
        | none => rw [hm] at h; exact ih h
        | some v => rw [hm] at h; cases h; exact markerLocal_sound rest w hm
      · simp only [detectAux, hc, if_neg, not_false_iff] at h
        exact ih h

/-- Searching `findSome?` over a mapped list. -/
theorem findSome?_map_succ {β : Type} (f : Nat → Option β) (l : List Nat) :
    ((l.map Nat.succ).findSome? f) = l.findSome? (fun i => f (Nat.succ i)) := by
  induction l with
  | nil => rfl
  | cons a l ih => cases h : f (Nat.succ a) <;> simp [List.findSome?, h, ih]

/-- The scanner equals the first-position search: `detectAux` returns the
capture of the leftmost text position whose suffix matches the pattern. -/
theorem detectAux_eq_first (cs : List Char) :
    detectAux cs = (List.range cs.length).findSome? (markerAt cs) := by
  induction cs with
  | nil => rfl
  | cons c rest ih =>
      have hshift : ∀ i, markerAt (c :: rest) (Nat.succ i) = markerAt rest i := by
        intro i
        simp [markerAt, List.drop_succ_cons]
      have hrange : List.range (c :: rest).length =
          0 :: (List.range rest.length).map Nat.succ := by
        simp [List.length_cons, List.range_succ_eq_map]
      rw [hrange]
      have h0 : markerAt (c :: rest) 0 =
          if c = '@' then markerLocal rest else none := by
        simp [markerAt]
      have hfun : (fun i => markerAt (c :: rest) (Nat.succ i)) = markerAt rest :=
        funext hshift
      by_cases hc : c = '@'
      · subst hc
        cases hm : markerLocal rest with
        | some w =>
            simp [detectAux, List.findSome?, h0, hm]
        | none =>
            simp only [detectAux, if_pos, List.findSome?, h0, hm]
            rw [findSome?_map_succ, hfun, ← ih]
      · simp only [detectAux, hc, if_neg, not_false_iff, List.findSome?, h0, if_false]
        rw [findSome?_map_succ, hfun, ← ih]

/-- C3 counterexample: on the text `@'w` — a quote on the left side only,
hence not a marker of the spec's grammar of identifiers optionally wrapped
in a quote on each side — the detector still returns `w` instead of the
absent result the claim requires. -/
theorem C3_counterexample :
    detect_tool_invocation "@'w" = some "w" ∧ specGrammarDetect "@'w" = none := by
  refine ⟨by decide, by decide⟩

/-- C3 as amended: the detector returns the capture of the **first** text
position matching `@`, an optional single or double quote (which need not be
closed or matched — any trailing quote is simply ignored), and an
identifier; the returned identifier is a non-empty run of word characters
with the quotes stripped, and when no position matches the result is absent. -/
theorem C3_detect_first_match (text : String) :
    detect_tool_invocation text =
      ((List.range text.data.length).findSome? (markerAt text.data)).map
        (fun cs => String.mk cs) ∧
    (∀ w, detect_tool_invocation text = some w →
      w.data ≠ [] ∧ w.data.all isWordChar = true) := by
  constructor
  · simp [detect_tool_invocation, detectAux_eq_first]
  · intro w hw
    unfold detect_tool_invocation at hw
    cases hl : detectAux text.data with
    | none => simp [hl] at hw
    | some l =>
        simp only [hl, Option.map_some'] at hw
        obtain rfl := Option.some.inj hw
        exact detectAux_sound _ _ hl

/-- Witness for the amended C3 on a concrete text with two markers: the
first marker wins, its identifier is a non-empty word-character run, and the
first-position search agrees. -/
theorem C3_detect_first_match_witness :
    detect_tool_invocation "a @x and @y" =
      ((List.range ("a @x and @y").data.length).findSome?
        (markerAt ("a @x and @y").data)).map (fun cs => String.mk cs) ∧
    (("x" : String).data ≠ [] ∧ ("x" : String).data.all isWordChar = true) :=
  ⟨(C3_detect_first_match "a @x and @y").1,
   (C3_detect_first_match "a @x and @y").2 "x" (by decide)⟩

/-- A run of word characters contains no `@`, so the spec-grammar scanner
finds nothing inside it. -/
theorem specGrammarDetectAux_all_word (l : List Char)
    (h : l.all isWordChar = true) : specGrammarDetectAux l = none := by
  induction l with
  | nil => rfl
  | cons c cs ih =>
      simp only [List.all_cons, Bool.and_eq_true] at h
      have hc : c ≠ '@' := by
        intro hc
        subst hc
        simp [isWordChar] at h
      simp [specGrammarDetectAux, hc, ih h.2]

/-- C10: the detector accepts strictly more than the spec's marker grammar.
For every non-empty identifier `w` of word characters it returns `w` on a
text with mismatched quotes (`@"w'`) and on a text with a one-sided quote
(`@'w`) — the latter being rejected by the grammar exactly as the spec words
it — and on the email-like text `user@example.com` it reports the tool name
`example`. -/
theorem C10_detector_overaccepts (w : List Char) (hne : w ≠ [])
    (hw : w.all isWordChar = true) :
    detectAux ('@' :: '"' :: (w ++ ['\''])) = some w ∧
    detectAux ('@' :: '\'' :: w) = some w ∧
    specGrammarDetectAux ('@' :: '\'' :: w) = none ∧
    detect_tool_invocation "user@example.com" = some "example" := by
  obtain ⟨c, w', rfl⟩ : ∃ c w', w = c :: w' := by
    cases w with
    | nil => exact absurd rfl hne
    | cons c w' => exact ⟨c, w', rfl⟩
  have hc : isWordChar c = true := by
    simp only [List.all_cons, Bool.and_eq_true] at hw
    exact hw.1
  have hquote : isWordChar '\'' = false := by decide
  refine ⟨?_, ?_, ?_, by decide⟩
  · have : takeWord ((c :: w') ++ ['\'']) = c :: w' :=
      takeWord_append_stop _ _ hw hquote
    simp [detectAux, markerLocal, quoteChar, List.cons_append, hc] at this ⊢
    simpa [takeWord, hc] using this
  · have : takeWord (c :: w') = c :: w' := takeWord_of_all _ hw
    simp [detectAux, markerLocal, quoteChar, hc] at this ⊢
    simpa [takeWord, hc] using this
  · have htw : takeWord (c :: w') = c :: w' := takeWord_of_all _ hw
    have hloc : specGrammarLocal ('\'' :: c :: w') = none := by
      have h1 : specGrammarLocal ('\'' :: c :: w') =
          (match takeWord (c :: w') with
           | [] => none
           | w => if ((c :: w').drop w.length).head? = some '\'' then some w
                  else none) := rfl
      rw [h1, htw]
      simp [List.drop_length]
    have h2 : specGrammarDetectAux ('@' :: '\'' :: c :: w') =
        (match specGrammarLocal ('\'' :: c :: w') with
         | some w => some w
         | none => specGrammarDetectAux ('\'' :: c :: w')) := rfl
    have h3 : specGrammarDetectAux ('\'' :: c :: w') =
        specGrammarDetectAux (c :: w') := rfl
    rw [h2, hloc, h3, specGrammarDetectAux_all_word _ hw]

/-- Witness for C10 at the identifier `w`: both over-accepted forms return
it, the spec grammar rejects the one-sided form, and the email text yields a
detection. -/
theorem C10_detector_overaccepts_witness :
    detectAux ('@' :: '"' :: (['w'] ++ ['\''])) = some ['w'] ∧
    detectAux ('@' :: '\'' :: ['w']) = some ['w'] ∧
    specGrammarDetectAux ('@' :: '\'' :: ['w']) = none ∧
    detect_tool_invocation "user@example.com" = some "example" :=
  C10_detector_overaccepts ['w'] (by decide) (by decide)

/-! ## Claims about the tool router -/

/-- The lazy content capture is never empty (`(.+?)` needs one character). -/
theorem lazyCap_ne_nil : ∀ l r : List Char, lazyCap l = some r → r ≠ [] := by
  intro l
  induction l with
  | nil => intro r h; simp [lazyCap] at h
  | cons c cs ih =>
      intro r h
      cases cs with
      | nil => simp [lazyCap] at h
      | cons d ds =>
          by_cases hq : quoteChar d
          · simp only [lazyCap, hq, if_true, Option.some.injEq] at h
            subst h
            simp
          · simp only [lazyCap, hq, Bool.false_eq_true, if_false] at h
            cases hl : lazyCap (d :: ds) with
            | none => rw [hl] at h; simp at h
            | some r' =>
                rw [hl] at h
                simp only [Option.map_some', Option.some.injEq] at h
                subst h
                simp

/-- The content tail never captures the empty string. -/
theorem contentTail_ne_nil : ∀ l r : List Char, contentTail l = some r → r ≠ [] := by
  intro l r h
  cases l with
  | nil => simp [contentTail] at h
  | cons c cs =>
      by_cases hq : quoteChar c
      · simp only [contentTail, hq, if_true] at h
        exact lazyCap_ne_nil cs r h
      · simp [contentTail, hq] at h

/-- Separator backtracking preserves a never-empty capture of its tail. -/
theorem sepMore_ne_nil (tail : List Char → Option (List Char))
    (htail : ∀ s r, tail s = some r → r ≠ []) :
    ∀ s r, sepMore tail s = some r → r ≠ [] := by
  intro s
  induction s with
  | nil => intro r h; exact htail [] r h
  | cons c cs ih =>
      intro r h
      by_cases hc : sepChar c
      · simp only [sepMore, hc, if_true] at h
        cases hm : sepMore tail cs with
        | some r' => rw [hm] at h; cases h; exact ih r hm
        | none => rw [hm] at h; exact htail _ _ h
      · simp only [sepMore, hc, Bool.false_eq_true, if_false] at h
        exact htail _ _ h

/-- The mandatory separator run preserves a never-empty capture. -/
theorem sepPlus_ne_nil (tail : List Char → Option (List Char))
    (htail : ∀ s r, tail s = some r → r ≠ []) :
    ∀ s r, sepPlus tail s = some r → r ≠ [] := by
  intro s r h
  cases s with
  | nil => simp [sepPlus] at h
  | cons c cs =>
      by_cases hc : sepChar c
      · simp only [sepPlus, hc, if_true] at h
        exact sepMore_ne_nil tail htail cs r h
      · simp [sepPlus, hc] at h

/-- A labeled search whose tail never captures the empty string never
returns an empty capture. -/
theorem searchLabeled_ne_nil (lit : List Char)
    (tail : List Char → Option (List Char))
    (htail : ∀ s r, tail s = some r → r ≠ []) :
    ∀ cs r, searchLabeled lit tail cs = some r → r ≠ [] := by
  intro cs
  induction cs with
  | nil => intro r h; simp [searchLabeled] at h
  | cons c cs' ih =>
      intro r h
      simp only [searchLabeled] at h
      cases hml : matchLitCI lit (c :: cs') with
      | none => simp only [hml] at h; exact ih r h
      | some rest =>
          simp only [hml] at h
          cases hsp : sepPlus tail rest with
          | none => simp only [hsp] at h; exact ih r h
          | some cap =>
              simp only [hsp, Option.some.injEq] at h
              subst h
              exact sepPlus_ne_nil tail htail rest _ hsp

/-- The extracted file content is never the empty string. -/
theorem contentSearch_ne_nil (cs r : List Char) (h : contentSearch cs = some r) :
    r ≠ [] :=
  searchLabeled_ne_nil "content".data contentTail contentTail_ne_nil cs r h

/-- The filename selected by the `create_file` branch (`tools.py:297`):
the extracted capture, or the fixed fallback path when the filename label is
absent. -/
def cf_filename (text : String) : String :=
  match filenameSearch text.data with
  | some f => String.mk f
  | none => "docs/ONBOARDING.md"

/-- C4: `create_file` routing — an absent filename label falls back to
`docs/ONBOARDING.md`; an absent content label produces the distinguished
`pending_content` result carrying the selected filename (not an error); an
extracted filename and content produce the `ready` result carrying both; and
the concrete text `@create_file` yields
`{status: pending_content, filename: docs/ONBOARDING.md}`. -/
theorem C4_create_file_routing (parseTs : String → Option Int) (now : Int)
    (fetch : FetchOutcome) (text : String) :
    (filenameSearch text.data = none → cf_filename text = "docs/ONBOARDING.md") ∧
    (contentSearch text.data = none →
      execute_tool parseTs now fetch "create_file" text =
        { tool := "create_file", status := "pending_content",
          filename := some (cf_filename text),
          message := some ("Please provide the content for " ++ cf_filename text) }) ∧
    (∀ f c, filenameSearch text.data = some f → contentSearch text.data = some c →
      execute_tool parseTs now fetch "create_file" text =
        { tool := "create_file", status := "ready", filename := some (String.mk f),
          content := some (String.mk c),
          message := some ("File creation request prepared: " ++ String.mk f) }) ∧
    execute_tool parseTs now fetch "create_file" "@create_file" =
      { tool := "create_file", status := "pending_content",
        filename := some "docs/ONBOARDING.md",
        message := some "Please provide the content for docs/ONBOARDING.md" } := by
  refine ⟨fun h => by simp [cf_filename, h], fun h => ?_, fun f c hf hc => ?_, rfl⟩
  · simp [execute_tool, h, cf_filename]
  · have hcne : c ≠ [] := contentSearch_ne_nil text.data c hc
    have hmk : String.mk c ≠ "" := fun he => hcne (congrArg String.data he)
    simp [execute_tool, hf, hc, hmk, handle_create_file, cf_filename]

/-- Witness for C4: a text with both labels routes to `ready` with the
extracted values, and the label-free text gets the fallback filename. -/
theorem C4_create_file_routing_witness :
    execute_tool (fun _ => none) 0 (FetchOutcome.ok []) "create_file"
        "filename: \"docs/a.md\" content: \"hello\"" =
      { tool := "create_file", status := "ready", filename := some "docs/a.md",
        content := some "hello",
        message := some "File creation request prepared: docs/a.md" } ∧
    cf_filename "@create_file" = "docs/ONBOARDING.md" :=
  ⟨(C4_create_file_routing (fun _ => none) 0 (FetchOutcome.ok [])
      "filename: \"docs/a.md\" content: \"hello\"").2.2.1
      ("docs/a.md").data ("hello").data (by decide) (by decide),
   (C4_create_file_routing (fun _ => none) 0 (FetchOutcome.ok []) "@create_file").1
      (by decide)⟩

/-- The per-memory admission test of the grouping loop: a present, non-empty
`ingested_at` string whose parse succeeds with a timestamp at or after the
cutoff (the code's `>= cutoff_time`, with no upper bound). -/
def tsAdmitted (parseTs : String → Option Int) (cutoff : Int) (m : Memory) : Bool :=
  match m.ingested_at with
  | none => false
  | some s =>
      if s = "" then false
      else
        match parseTs s with
        | none => false
        | some t => decide (cutoff ≤ t)

/-- Selector characterizing one bucket: the entry built from `m` when `m` is
admitted and its lower-cased source tag is among `tags`. -/
def selBucket (parseTs : String → Option Int) (cutoff : Int) (tags : List String)
    (m : Memory) : Option MemoryEntry :=
  match m.ingested_at with
  | none => none
  | some s =>
      if s = "" then none
      else
        match parseTs s with
        | none => none
        | some t =>
            if cutoff ≤ t ∧ strLower (m.source.getD "unknown") ∈ tags then
              some (entryOf m s)
            else none

/-- The grouping fold appends to each bucket exactly the entries its
selector admits, in memory order. -/
theorem bucketFold_eq (parseTs : String → Option Int) (cutoff : Int)
    (ms : List Memory) : ∀ ctx : RecentContext,
    ms.foldl (addMemory parseTs cutoff) ctx =
      ⟨ctx.telegram ++ ms.filterMap (selBucket parseTs cutoff ["telegram"]),
       ctx.drive ++ ms.filterMap (selBucket parseTs cutoff ["drive"]),
       ctx.github ++ ms.filterMap (selBucket parseTs cutoff ["github", "git"])⟩ := by
  induction ms with
  | nil => intro ctx; simp
  | cons m ms ih =>
      intro ctx
      rw [List.foldl_cons, ih]
      simp only [List.filterMap_cons]
      cases hin : m.ingested_at with
      | none => simp [addMemory, selBucket, hin]
      | some s =>
          by_cases hs : s = ""
          · simp [addMemory, selBucket, hin, hs]
          · cases hp : parseTs s with
            | none => simp [addMemory, selBucket, hin, hs, hp]
            | some t =>
                by_cases hct : cutoff ≤ t
                · by_cases h1 : strLower (m.source.getD "unknown") = "telegram"
                  · simp [addMemory, selBucket, hin, hs, hp, hct, h1]
                  · by_cases h2 : strLower (m.source.getD "unknown") = "drive"
                    · simp [addMemory, selBucket, hin, hs, hp, hct, h1, h2]
                    · by_cases h3 :
                        strLower (m.source.getD "unknown") ∈ (["github", "git"] : List String)
                      · have h3' :
                            strLower (m.source.getD "unknown") ∈
                              (["github", "git"] : List String) ∧
                            ¬strLower (m.source.getD "unknown") = "telegram" ∧
                            ¬strLower (m.source.getD "unknown") = "drive" := ⟨h3, h1, h2⟩
                        simp [addMemory, selBucket, hin, hs, hp, hct, h1, h2, h3]
                      · simp [addMemory, selBucket, hin, hs, hp, hct, h1, h2, h3]
                · simp [addMemory, selBucket, hin, hs, hp, hct]

/-- C5 counterexample: with `hours = 24` and the current instant at second
86400, a drive-tagged memory whose timestamp parses to second 0 sits exactly
at `now − hours` — outside the claim's half-open window `(now − hours, now]`
— yet the handler returns it in the `drive` bucket, because the code's test
is the inclusive `>= cutoff`. -/
theorem C5_counterexample :
    (handle_get_recent_context (fun s => if s = "B" then some 0 else none) 86400
        (FetchOutcome.ok [⟨"hello", some "id", some "drive", some "B"⟩]) 24).context =
      some ⟨[], [⟨"hello...", "B", some "id"⟩], []⟩ ∧
    ¬((86400 : Int) - 24 * 3600 < 0 ∧ (0 : Int) ≤ 86400) := by
  refine ⟨by decide, by decide⟩

/-- C5 as amended: the call always succeeds, and each bucket of the result
holds exactly the entries of the memories whose `ingested_at` string is
present, non-empty and parses to a timestamp `t` with `now − hours·3600 ≤ t`
(the lower bound inclusive and no upper bound), and whose lower-cased source
tag is `telegram`, `drive`, or one of `github`/`git` respectively — so
entries with unrecognized tags or unparsable timestamps appear in no bucket
and never fail the call. -/
theorem C5_bucket_membership (parseTs : String → Option Int) (now hours : Int)
    (memories : List Memory) :
    (handle_get_recent_context parseTs now (FetchOutcome.ok memories) hours).status =
      "success" ∧
    (handle_get_recent_context parseTs now (FetchOutcome.ok memories) hours).context =
      some ⟨memories.filterMap (selBucket parseTs (now - hours * 3600) ["telegram"]),
            memories.filterMap (selBucket parseTs (now - hours * 3600) ["drive"]),
            memories.filterMap (selBucket parseTs (now - hours * 3600) ["github", "git"])⟩ := by
  constructor
  · rfl
  · simp only [handle_get_recent_context, bucketMemories]
    rw [bucketFold_eq]
    simp

/-- C8: total error contract of the tool router — a name other than the
three known tools yields the structured `Unknown tool` error result; an
exception raised while querying memories inside the context or graph handler
is converted into an error result carrying its message; and every call
returns a structured result whose status is one of `ready`,
`pending_content`, `success`, `error` (the router, a total function here
because every handler catches its exceptions, never propagates one). -/
theorem C8_router_error_contract (parseTs : String → Option Int) (now : Int)
    (fetch : FetchOutcome) (name text : String) :
    (name ≠ "create_file" → name ≠ "get_recent_context" →
     name ≠ "generate_mermaid_graph" →
      execute_tool parseTs now fetch name text =
        { tool := name, status := "error",
          error := some ("Unknown tool: " ++ name) }) ∧
    (∀ e, fetch = FetchOutcome.raised e →
      execute_tool parseTs now fetch "get_recent_context" text =
        { tool := "get_recent_context", status := "error", error := some e } ∧
      execute_tool parseTs now fetch "generate_mermaid_graph" text =
        { tool := "generate_mermaid_graph", status := "error", error := some e }) ∧
    (execute_tool parseTs now fetch name text).status ∈
      (["ready", "pending_content", "success", "error"] : List String) := by
  refine ⟨fun h1 h2 h3 => ?_, fun e he => ?_, ?_⟩
  · simp [execute_tool, h1, h2, h3]
  · subst he
    constructor
    · simp [execute_tool, handle_get_recent_context]
    · simp [execute_tool, handle_generate_mermaid_graph]
  · by_cases h1 : name = "create_file"
    · subst h1
      simp only [execute_tool, if_pos]
      split
      · simp
      · simp [handle_create_file]
    · by_cases h2 : name = "get_recent_context"
      · subst h2
        cases fetch <;> simp [execute_tool, handle_get_recent_context]
      · by_cases h3 : name = "generate_mermaid_graph"
        · subst h3
          cases fetch <;> simp [execute_tool, handle_generate_mermaid_graph]
        · simp [execute_tool, h1, h2, h3]

/-- Witness for C8: an unknown tool name gets the structured error result,
and a raised memory query inside the context handler is converted to an
error result with its message. -/
theorem C8_router_error_contract_witness :
    execute_tool (fun _ => none) 0 (FetchOutcome.ok []) "frobnicate" "hello" =
      { tool := "frobnicate", status := "error",
        error := some "Unknown tool: frobnicate" } ∧
    execute_tool (fun _ => none) 0 (FetchOutcome.raised "boom") "get_recent_context"
        "hi" =
      { tool := "get_recent_context", status := "error", error := some "boom" } :=
  ⟨(C8_router_error_contract (fun _ => none) 0 (FetchOutcome.ok []) "frobnicate"
      "hello").1 (by decide) (by decide) (by decide),
   ((C8_router_error_contract (fun _ => none) 0 (FetchOutcome.raised "boom")
      "get_recent_context" "hi").2.1 "boom" rfl).1⟩
